import Mathlib

/-!
Verification of `get_frame_number.py`, a video frame extractor: the script
prompts for an input path, an output directory and a time interval, validates
them, opens the video with OpenCV, and then runs a loop that seeks to
successive timestamps `0, interval, 2*interval, ...`, decodes a frame, writes
it as a PNG named by the timestamp, and stops when the clock exceeds the
video duration or a decode fails.

The embedding keeps the script's structure: Python float values that can be
`nan`/`inf` are modelled by `PyVal` for the argument-validation and
stop-condition claims; the extraction loop carries its clock in `ℚ`, with
the decoder, the image-writer's success and the image-writer raising an
exception supplied as oracles `ℚ → Bool`. The loop comes in two variants:
`extractLoop` accumulates the clock exactly (the idealized real-valued clock
of the spec), while `extractLoopF` rounds every `current_time += interval`
to binary64 as the source's float arithmetic does (`fp64`); the two differ
at boundary inputs, which is what settles the frame-count claim.
-/

/-! ### Python float values: finite numbers, nan and infinities -/

/-- A Python float as far as this script observes it: a finite value
(modelled exactly by a rational), `nan`, `inf` or `-inf`. -/
inductive PyVal where
  | num (q : ℚ)
  | nan
  | inf
  | ninf
deriving DecidableEq

/-- Python float addition (`current_time += interval`): nan propagates,
infinities absorb, opposite infinities give nan. -/
def pyAdd : PyVal → PyVal → PyVal
  | .nan, _ => .nan
  | _, .nan => .nan
  | .inf, .ninf => .nan
  | .ninf, .inf => .nan
  | .inf, _ => .inf
  | _, .inf => .inf
  | .ninf, _ => .ninf
  | _, .ninf => .ninf
  | .num a, .num b => .num (a + b)

/-- Python's `interval <= 0` test: false whenever either side is nan. -/
def pyLe0 : PyVal → Bool
  | .num q => decide (q ≤ 0)
  | .nan => false
  | .inf => false
  | .ninf => true

/-- Python's `clock > duration` test: false whenever either side is nan. -/
def pyGt : PyVal → PyVal → Bool
  | .nan, _ => false
  | _, .nan => false
  | .inf, .inf => false
  | .inf, _ => true
  | .ninf, _ => false
  | .num _, .inf => false
  | .num _, .ninf => true
  | .num a, .num b => decide (b < a)

/-! ### The `float(...)` builtin on the stripped prompt answer -/

/-- Numeric value of a digit string, most significant first. -/
def natOfDigits (cs : List Char) : ℕ :=
  cs.foldl (fun a c => 10 * a + (c.toNat - 48)) 0

/-- Parse an exponent-free decimal literal (`123`, `1.5`, `.5`, `1.`):
digits with at most one dot and at least one digit. -/
def parseDecimal (cs : List Char) : Option ℚ :=
  let ip := cs.takeWhile (fun c => c ≠ '.')
  let rest := cs.dropWhile (fun c => c ≠ '.')
  if ip.all Char.isDigit = false then none
  else
    match rest with
    | [] => if ip.isEmpty then none else some (natOfDigits ip)
    | _ :: fp =>
        if fp.all Char.isDigit = false then none
        else if ip.isEmpty ∧ fp.isEmpty then none
        else some ((natOfDigits ip : ℚ) + (natOfDigits fp : ℚ) / (10 : ℚ) ^ fp.length)

/-- Models Python's `float(...)` builtin on the already-stripped input: an
optional sign followed by `nan`, `inf`/`infinity` (case-insensitive) or an
exponent-free decimal literal; anything else raises `ValueError` (`none`). -/
def pyFloat (s : String) : Option PyVal :=
  let t := s.data.map Char.toLower
  let core := match t with
    | '-' :: u => u
    | '+' :: u => u
    | u => u
  let neg : Bool := match t with
    | '-' :: _ => true
    | _ => false
  if core = ('n' :: 'a' :: 'n' :: []) then some .nan
  else if core = ('i' :: 'n' :: 'f' :: []) ∨
      core = ('i' :: 'n' :: 'f' :: 'i' :: 'n' :: 'i' :: 't' :: 'y' :: []) then
    some (if neg then .ninf else .inf)
  else
    match parseDecimal core with
    | some q => some (.num (if neg then -q else q))
    | none => none

/-- Lines 36-41 of the script: `interval = float(interval_str)`, then
`if interval <= 0: raise ValueError`, the `ValueError` being caught and
turned into an abort (`none`). -/
def validateInterval (s : String) : Option PyVal :=
  match pyFloat s with
  | none => none
  | some v => if pyLe0 v then none else some v

/-- The virtual clock after `n` increments: `0.0` at loop entry, then
`clock + interval` once per iteration. -/
def clockAt (interval : PyVal) : ℕ → PyVal
  | 0 => .num 0
  | n + 1 => pyAdd (clockAt interval n) interval

/-! ### The pre-loop phase: validation order, directory creation, open -/

/-- The three fatal pre-loop aborts, in program order. -/
inductive AbortKind where
  | invalidInterval
  | fileNotFound
  | cannotOpen
deriving DecidableEq

/-- Observable effects of the pre-loop phase. -/
structure SetupResult where
  aborted : Option AbortKind
  madeDir : Bool
  openedDecoder : Bool
deriving DecidableEq

/-- Lines 36-50 of the script in program order: validate the interval string,
then `os.path.isfile`, then `os.makedirs(out_dir, exist_ok=True)`, then
`cv2.VideoCapture` / `isOpened`. -/
def setupPhase (intervalStr : String) (inputIsFile : Bool) (decoderOpens : Bool) :
    SetupResult :=
  match validateInterval intervalStr with
  | none => ⟨some .invalidInterval, false, false⟩
  | some _ =>
    if inputIsFile = false then ⟨some .fileNotFound, false, false⟩
    else if decoderOpens = false then ⟨some .cannotOpen, true, true⟩
    else ⟨none, true, true⟩

/-! ### Timestamp formatting (lines 71-76) -/

/-- Python `int(...)` on a finite float: truncation toward zero. -/
def pyInt (q : ℚ) : ℤ :=
  if q < 0 then ⌈q⌉ else ⌊q⌋

/-- Python float `//` (floor division), for a positive divisor. -/
def pyFloorDiv (x y : ℚ) : ℚ :=
  ⌊x / y⌋

/-- Python float `%` (modulo), for a positive divisor:
`x % y = x - y * floor(x / y)`. -/
def pyMod (x y : ℚ) : ℚ :=
  x - y * ⌊x / y⌋

/-- Python `round(...)` to an integer: round half to even. -/
def pyRound (q : ℚ) : ℤ :=
  if q - ⌊q⌋ < 1 / 2 then ⌊q⌋
  else if 1 / 2 < q - ⌊q⌋ then ⌊q⌋ + 1
  else if ⌊q⌋ % 2 = 0 then ⌊q⌋ else ⌊q⌋ + 1

/-- Zero-pad the decimal form of `n` to width `w`, as Python's `{n:0wd}`
does for nonnegative `n`. -/
def padNat (w : ℕ) (n : ℕ) : String :=
  String.mk (List.replicate (w - (Nat.repr n).length) '0') ++ Nat.repr n

/-- Python's `{n:0wd}` on an integer: the sign occupies one width column. -/
def intPad (w : ℕ) (n : ℤ) : String :=
  if n < 0 then ("-") ++ padNat (w - 1) n.natAbs else padNat w n.toNat

/-- Field `hh = int(current_time // 3600)` (line 71). -/
def hhField (t : ℚ) : ℤ :=
  pyInt (pyFloorDiv t 3600)

/-- Field `mm = int((current_time % 3600) // 60)` (line 72). -/
def mmField (t : ℚ) : ℤ :=
  pyInt (pyFloorDiv (pyMod t 3600) 60)

/-- Field `ss = int(current_time % 60)` (line 73). -/
def ssField (t : ℚ) : ℤ :=
  pyInt (pyMod t 60)

/-- Field `ms_int = int(round((current_time - int(current_time)) * 1000))`
(line 74). -/
def msField (t : ℚ) : ℤ :=
  pyRound ((t - (pyInt t : ℚ)) * 1000)

/-- Format `filename` (line 76): hours, minutes, seconds and millisecond
fields zero-padded to widths 2, 2, 2 and 3. -/
def frameFilename (t : ℚ) : String :=
  ("frame_") ++ intPad 2 (hhField t) ++ ("_") ++ intPad 2 (mmField t) ++ ("_")
    ++ intPad 2 (ssField t) ++ (".") ++ intPad 3 (msField t) ++ (".png")

/-! ### The extraction loop (lines 60-90) -/

/-- Mutable state of the loop: the `saved` counter, the list of paths passed
to `cv2.imwrite` in order, the number of `imwrite` calls that returned true
(the files actually written), and the number of seek/read attempts. -/
structure LoopSt where
  saved : ℕ
  files : List String
  written : ℕ
  attempts : ℕ
deriving DecidableEq

/-- How the loop ended: a failed `cap.read()` (`break` at line 68), the clock
passing the duration (`break` at line 86), an exception propagating out of an
iteration, or the artificial fuel bound. -/
inductive LoopOut where
  | doneDecodeFail (st : LoopSt)
  | doneClock (st : LoopSt)
  | raised (st : LoopSt)
  | outOfFuel (st : LoopSt)
deriving DecidableEq

/-- One pass through the `while True` body per unit of fuel: seek and read at
`t` (oracle `decode`); on failure break; otherwise `cv2.imwrite` may raise
(oracle `wRaises`) or return a success bit (oracle `wOk`, ignored by the
script); then `saved += 1`, `current_time += interval`, and break once
`current_time > duration`. -/
def extractLoop (decode wOk wRaises : ℚ → Bool) (interval duration : ℚ) :
    ℕ → ℚ → LoopSt → LoopOut
  | 0, _, st => .outOfFuel st
  | fuel + 1, t, st =>
    if decode t = false then
      .doneDecodeFail ⟨st.saved, st.files, st.written, st.attempts + 1⟩
    else if wRaises t = true then
      .raised ⟨st.saved, st.files, st.written, st.attempts + 1⟩
    else
      let st2 : LoopSt :=
        ⟨st.saved + 1, st.files ++ [frameFilename t],
          st.written + (if wOk t = true then 1 else 0), st.attempts + 1⟩
      if t + interval > duration then .doneClock st2
      else extractLoop decode wOk wRaises interval duration fuel (t + interval) st2

/-- Line 54: `duration_sec = total_frames / fps if fps > 0 else 0`. -/
def durationSec (totalFrames : ℤ) (fps : ℚ) : ℚ :=
  if 0 < fps then (totalFrames : ℚ) / fps else 0

/-- Why the extraction phase ended, as seen from outside `main`. -/
inductive ExitReason where
  | decodeFail
  | clockDone
  | exceptionRaised
  | fuelOut
deriving DecidableEq

/-- Everything observable about one run of the extraction phase:
the final counters, how the loop ended, whether `cap.release()` (line 89)
ran, whether the summary line (line 90) was printed, and the process exit
code. -/
structure RunResult where
  saved : ℕ
  files : List String
  written : ℕ
  attempts : ℕ
  exitedBy : ExitReason
  released : Bool
  summaryPrinted : Bool
  exitCode : ℕ
deriving DecidableEq

/-- Lines 60-90 of the script: run the loop from `current_time = 0.0` with
`saved = 0`; when the loop body returns normally, `pbar.close()`,
`cap.release()` and the summary print run and the process exits 0; an
exception propagating out of the loop skips all three and exits nonzero. -/
def runMain (decode wOk wRaises : ℚ → Bool) (interval duration : ℚ) (fuel : ℕ) :
    RunResult :=
  match extractLoop decode wOk wRaises interval duration fuel 0 ⟨0, [], 0, 0⟩ with
  | .doneDecodeFail st =>
      ⟨st.saved, st.files, st.written, st.attempts, .decodeFail, true, true, 0⟩
  | .doneClock st =>
      ⟨st.saved, st.files, st.written, st.attempts, .clockDone, true, true, 0⟩
  | .raised st =>
      ⟨st.saved, st.files, st.written, st.attempts, .exceptionRaised, false, false, 1⟩
  | .outOfFuel st =>
      ⟨st.saved, st.files, st.written, st.attempts, .fuelOut, false, false, 0⟩

/-! ### The extraction loop with the source's binary64 clock

`extractLoop` above idealizes line 84 (`current_time += interval`) as exact
addition. The source accumulates the clock in IEEE-754 binary64, which
rounds every sum; the variant below models that rounding faithfully and is
used to compare the two clocks. -/

/-- Models IEEE-754 binary64 rounding (round to nearest, ties to even) of a
positive rational in the normal range, as the Python runtime applies to the
result of every float operation: the value is scaled into `[2^52, 2^53)`,
rounded half-to-even to an integer (`pyRound` is exactly that rounding), and
scaled back. Nonpositive arguments (only the initial 0.0 here) are returned
unchanged; overflow and subnormals, which no run in this development
reaches, are not modelled. -/
def fp64 (q : ℚ) : ℚ :=
  if q ≤ 0 then q
  else ((pyRound (q * 2 ^ (52 - Int.log 2 q)) : ℤ) : ℚ) * 2 ^ (Int.log 2 q - 52)

/-- The extraction loop with the clock accumulated as the source does:
`current_time += interval` (line 84) is binary64 addition, i.e. the exact
sum rounded by `fp64`. Identical to `extractLoop` otherwise. -/
def extractLoopF (decode wOk wRaises : ℚ → Bool) (interval duration : ℚ) :
    ℕ → ℚ → LoopSt → LoopOut
  | 0, _, st => .outOfFuel st
  | fuel + 1, t, st =>
    if decode t = false then
      .doneDecodeFail ⟨st.saved, st.files, st.written, st.attempts + 1⟩
    else if wRaises t = true then
      .raised ⟨st.saved, st.files, st.written, st.attempts + 1⟩
    else
      let st2 : LoopSt :=
        ⟨st.saved + 1, st.files ++ [frameFilename t],
          st.written + (if wOk t = true then 1 else 0), st.attempts + 1⟩
      if fp64 (t + interval) > duration then .doneClock st2
      else extractLoopF decode wOk wRaises interval duration fuel
        (fp64 (t + interval)) st2

/-- Lines 60-90 with the binary64 clock of `extractLoopF`. -/
def runMainF (decode wOk wRaises : ℚ → Bool) (interval duration : ℚ) (fuel : ℕ) :
    RunResult :=
  match extractLoopF decode wOk wRaises interval duration fuel 0 ⟨0, [], 0, 0⟩ with
  | .doneDecodeFail st =>
      ⟨st.saved, st.files, st.written, st.attempts, .decodeFail, true, true, 0⟩
  | .doneClock st =>
      ⟨st.saved, st.files, st.written, st.attempts, .clockDone, true, true, 0⟩
  | .raised st =>
      ⟨st.saved, st.files, st.written, st.attempts, .exceptionRaised, false, false, 1⟩
  | .outOfFuel st =>
      ⟨st.saved, st.files, st.written, st.attempts, .fuelOut, false, false, 0⟩

/-! ### Basic unfolding lemmas for the loop -/

theorem extractLoop_zero (d w r : ℚ → Bool) (i D t : ℚ) (st : LoopSt) :
    extractLoop d w r i D 0 t st = .outOfFuel st := rfl

theorem extractLoop_succ (d w r : ℚ → Bool) (i D t : ℚ) (st : LoopSt) (fuel : ℕ) :
    extractLoop d w r i D (fuel + 1) t st =
      (if d t = false then
        LoopOut.doneDecodeFail ⟨st.saved, st.files, st.written, st.attempts + 1⟩
      else if r t = true then
        LoopOut.raised ⟨st.saved, st.files, st.written, st.attempts + 1⟩
      else
        (if t + i > D then
          LoopOut.doneClock
            ⟨st.saved + 1, st.files ++ [frameFilename t],
              st.written + (if w t = true then 1 else 0), st.attempts + 1⟩
        else
          extractLoop d w r i D fuel (t + i)
            ⟨st.saved + 1, st.files ++ [frameFilename t],
              st.written + (if w t = true then 1 else 0), st.attempts + 1⟩)) := rfl

/-- The loop state carried by any of the four loop outcomes. -/
def LoopOut.state : LoopOut → LoopSt
  | .doneDecodeFail st => st
  | .doneClock st => st
  | .raised st => st
  | .outOfFuel st => st

theorem runMain_saved (d w r : ℚ → Bool) (i D : ℚ) (fuel : ℕ) :
    (runMain d w r i D fuel).saved =
      (extractLoop d w r i D fuel 0 ⟨0, [], 0, 0⟩).state.saved := by
  unfold runMain
  cases extractLoop d w r i D fuel 0 ⟨0, [], 0, 0⟩ <;> rfl

theorem runMain_written (d w r : ℚ → Bool) (i D : ℚ) (fuel : ℕ) :
    (runMain d w r i D fuel).written =
      (extractLoop d w r i D fuel 0 ⟨0, [], 0, 0⟩).state.written := by
  unfold runMain
  cases extractLoop d w r i D fuel 0 ⟨0, [], 0, 0⟩ <;> rfl

theorem runMain_files (d w r : ℚ → Bool) (i D : ℚ) (fuel : ℕ) :
    (runMain d w r i D fuel).files =
      (extractLoop d w r i D fuel 0 ⟨0, [], 0, 0⟩).state.files := by
  unfold runMain
  cases extractLoop d w r i D fuel 0 ⟨0, [], 0, 0⟩ <;> rfl

theorem runMain_attempts (d w r : ℚ → Bool) (i D : ℚ) (fuel : ℕ) :
    (runMain d w r i D fuel).attempts =
      (extractLoop d w r i D fuel 0 ⟨0, [], 0, 0⟩).state.attempts := by
  unfold runMain
  cases extractLoop d w r i D fuel 0 ⟨0, [], 0, 0⟩ <;> rfl

/-- The `saved` counter always equals the number of paths handed to
`cv2.imwrite`, on every exit path of the loop. -/
theorem extractLoop_saved_eq_files (d w r : ℚ → Bool) (i D : ℚ) :
    ∀ fuel : ℕ, ∀ t : ℚ, ∀ st : LoopSt, st.saved = st.files.length →
      (extractLoop d w r i D fuel t st).state.saved =
        (extractLoop d w r i D fuel t st).state.files.length := by
  intro fuel
  induction fuel with
  | zero =>
    intro t st h
    simpa [extractLoop_zero, LoopOut.state] using h
  | succ f ih =>
    intro t st h
    rw [extractLoop_succ]
    by_cases h1 : d t = false
    · rw [if_pos h1]
      simpa [LoopOut.state] using h
    · rw [if_neg h1]
      by_cases h2 : r t = true
      · rw [if_pos h2]
        simpa [LoopOut.state] using h
      · rw [if_neg h2]
        by_cases h3 : t + i > D
        · rw [if_pos h3]
          simp [LoopOut.state, h]
        · rw [if_neg h3]
          exact ih (t + i) _ (by simp [h])

/-- The `saved` counter never depends on the boolean results of the
`cv2.imwrite` calls. -/
theorem extractLoop_saved_indep (d r w1 w2 : ℚ → Bool) (i D : ℚ) :
    ∀ fuel : ℕ, ∀ t : ℚ, ∀ st1 st2 : LoopSt, st1.saved = st2.saved →
      (extractLoop d w1 r i D fuel t st1).state.saved =
        (extractLoop d w2 r i D fuel t st2).state.saved := by
  intro fuel
  induction fuel with
  | zero =>
    intro t st1 st2 h
    simpa [extractLoop_zero, LoopOut.state] using h
  | succ f ih =>
    intro t st1 st2 h
    rw [extractLoop_succ, extractLoop_succ]
    by_cases h1 : d t = false
    · rw [if_pos h1, if_pos h1]
      simpa [LoopOut.state] using h
    · rw [if_neg h1, if_neg h1]
      by_cases h2 : r t = true
      · rw [if_pos h2, if_pos h2]
        simpa [LoopOut.state] using h
      · rw [if_neg h2, if_neg h2]
        by_cases h3 : t + i > D
        · rw [if_pos h3, if_pos h3]
          simp [LoopOut.state, h]
        · rw [if_neg h3, if_neg h3]
          exact ih (t + i) _ _ (by simp [h])

/-- The number of successful `cv2.imwrite` calls never exceeds the `saved`
counter. -/
theorem extractLoop_written_le_saved (d w r : ℚ → Bool) (i D : ℚ) :
    ∀ fuel : ℕ, ∀ t : ℚ, ∀ st : LoopSt, st.written ≤ st.saved →
      (extractLoop d w r i D fuel t st).state.written ≤
        (extractLoop d w r i D fuel t st).state.saved := by
  intro fuel
  induction fuel with
  | zero =>
    intro t st h
    simpa [extractLoop_zero, LoopOut.state] using h
  | succ f ih =>
    intro t st h
    rw [extractLoop_succ]
    by_cases h1 : d t = false
    · rw [if_pos h1]
      simpa [LoopOut.state] using h
    · rw [if_neg h1]
      by_cases h2 : r t = true
      · rw [if_pos h2]
        simpa [LoopOut.state] using h
      · rw [if_neg h2]
        by_cases h3 : t + i > D
        · rw [if_pos h3]
          simp only [LoopOut.state]
          split_ifs <;> omega
        · rw [if_neg h3]
          refine ih (t + i) _ ?_
          simp only
          split_ifs <;> omega

/-- Master lemma for runs in which every sampled decode succeeds and no
write raises: started at clock `k * interval` with `k * interval ≤ duration`,
the loop performs exactly `⌊(duration - k*interval)/interval⌋₊ + 1` further
iterations, appending the corresponding timestamp filenames in order, and
exits through the `current_time > duration` test. -/
theorem extractLoop_clockDone (d w r : ℚ → Bool) (i D : ℚ) (hi : 0 < i)
    (hd : ∀ m : ℕ, d ((m : ℚ) * i) = true) (hr : ∀ m : ℕ, r ((m : ℚ) * i) = false) :
    ∀ n fuel k : ℕ, ∀ st : LoopSt, n = ⌊(D - (k : ℚ) * i) / i⌋₊ →
      (k : ℚ) * i ≤ D → n + 1 ≤ fuel →
      ∃ st2 : LoopSt,
        extractLoop d w r i D fuel ((k : ℚ) * i) st = .doneClock st2 ∧
        st2.saved = st.saved + (n + 1) ∧
        st2.attempts = st.attempts + (n + 1) ∧
        st2.files = st.files ++
          (List.range (n + 1)).map (fun m : ℕ => frameFilename (((k + m : ℕ) : ℚ) * i)) := by
  intro n
  induction n with
  | zero =>
    intro fuel k st hn hkD hfuel
    obtain ⟨f, rfl⟩ : ∃ f, fuel = f + 1 := ⟨fuel - 1, by omega⟩
    have hc : (k : ℚ) * i + i > D := by
      have h0 : (D - (k : ℚ) * i) / i < 1 := Nat.floor_eq_zero.mp hn.symm
      have h1 : D - (k : ℚ) * i < 1 * i := (div_lt_iff₀ hi).mp h0
      linarith
    rw [extractLoop_succ, if_neg (by simp [hd k]), if_neg (by simp [hr k]), if_pos hc]
    refine ⟨_, rfl, rfl, rfl, ?_⟩
    simp [List.range_succ]
  | succ n ih =>
    intro fuel k st hn hkD hfuel
    obtain ⟨f, rfl⟩ : ∃ f, fuel = f + 1 := ⟨fuel - 1, by omega⟩
    have hi' : i ≠ 0 := ne_of_gt hi
    have hx0 : (0 : ℚ) ≤ (D - (k : ℚ) * i) / i := div_nonneg (by linarith) hi.le
    have hfl : ⌊(D - (k : ℚ) * i) / i⌋₊ = n + 1 := hn.symm
    have hbounds := (Nat.floor_eq_iff hx0).mp hfl
    have hge : ((n : ℚ) + 1) ≤ (D - (k : ℚ) * i) / i := by
      have := hbounds.1
      push_cast at this
      linarith
    have hxlt : (D - (k : ℚ) * i) / i < (n : ℚ) + 2 := by
      have := hbounds.2
      push_cast at this
      linarith
    have hle : (k : ℚ) * i + i ≤ D := by
      have h1 : (1 : ℚ) ≤ (D - (k : ℚ) * i) / i := by
        have hn0 : (0 : ℚ) ≤ (n : ℚ) := by positivity
        linarith
      have h2 : 1 * i ≤ D - (k : ℚ) * i := (le_div_iff₀ hi).mp h1
      linarith
    rw [extractLoop_succ, if_neg (by simp [hd k]), if_neg (by simp [hr k]),
      if_neg (not_lt.mpr hle)]
    have ht : (k : ℚ) * i + i = ((k + 1 : ℕ) : ℚ) * i := by push_cast; ring
    rw [ht]
    have heq : (D - ((k + 1 : ℕ) : ℚ) * i) / i = (D - (k : ℚ) * i) / i - 1 := by
      push_cast
      field_simp
      ring
    have hn2 : n = ⌊(D - ((k + 1 : ℕ) : ℚ) * i) / i⌋₊ := by
      rw [heq]
      symm
      rw [Nat.floor_eq_iff (by linarith)]
      constructor
      · linarith
      · linarith
    have hkD2 : ((k + 1 : ℕ) : ℚ) * i ≤ D := by push_cast; linarith
    obtain ⟨st2, hstep, hsv, hat, hfi⟩ := ih f (k + 1) _ hn2 hkD2 (by omega)
    refine ⟨st2, hstep, ?_, ?_, ?_⟩
    · rw [hsv]
      simp only
      omega
    · rw [hat]
      simp only
      omega
    · rw [hfi]
      simp only [List.append_assoc, List.singleton_append]
      congr 1
      conv_rhs => rw [List.range_succ_eq_map, List.map_cons, List.map_map]
      congr 1
      apply List.map_congr_left
      intro m _
      simp only [Function.comp_apply]
      congr 1
      push_cast
      ring_nf

/-- A run in which every sampled decode succeeds and no write raises exits
through the clock test with `⌊duration/interval⌋₊ + 1` frames saved and the
corresponding filenames in sampling order. -/
theorem runMain_success (d w : ℚ → Bool) (i D : ℚ) (fuel : ℕ) (hi : 0 < i)
    (hD : 0 ≤ D) (hd : ∀ m : ℕ, d ((m : ℚ) * i) = true)
    (hfuel : ⌊D / i⌋₊ + 1 ≤ fuel) :
    (runMain d w (fun _ => false) i D fuel).exitedBy = .clockDone ∧
    (runMain d w (fun _ => false) i D fuel).saved = ⌊D / i⌋₊ + 1 ∧
    (runMain d w (fun _ => false) i D fuel).attempts = ⌊D / i⌋₊ + 1 ∧
    (runMain d w (fun _ => false) i D fuel).files =
      (List.range (⌊D / i⌋₊ + 1)).map (fun m : ℕ => frameFilename ((m : ℚ) * i)) := by
  have h0 : ((0 : ℕ) : ℚ) * i = 0 := by norm_num
  obtain ⟨st2, hstep, hsv, hat, hfi⟩ :=
    extractLoop_clockDone d w (fun _ => false) i D hi hd (fun m => rfl)
      ⌊D / i⌋₊ fuel 0 ⟨0, [], 0, 0⟩ (by rw [h0]; norm_num) (by rw [h0]; exact hD) hfuel
  rw [h0] at hstep
  unfold runMain
  rw [hstep]
  refine ⟨rfl, ?_, ?_, ?_⟩
  · simpa using hsv
  · simpa using hat
  · simpa using hfi

/-! ### Evaluating the timestamp fields for sub-second clock values -/

theorem hhField_subsecond (t : ℚ) (h0 : 0 ≤ t) (h1 : t < 3600) : hhField t = 0 := by
  unfold hhField pyFloorDiv pyInt
  have hf : ⌊t / 3600⌋ = 0 := by
    rw [Int.floor_eq_zero_iff, Set.mem_Ico]
    constructor
    · exact div_nonneg h0 (by norm_num)
    · rw [div_lt_one (by norm_num)]
      exact h1
  rw [hf]
  norm_num

theorem mmField_subsecond (t : ℚ) (h0 : 0 ≤ t) (h1 : t < 60) : mmField t = 0 := by
  unfold mmField pyFloorDiv pyMod pyInt
  have hf : ⌊t / 3600⌋ = 0 := by
    rw [Int.floor_eq_zero_iff, Set.mem_Ico]
    constructor
    · exact div_nonneg h0 (by norm_num)
    · rw [div_lt_one (by norm_num)]
      linarith
  rw [hf]
  have hf2 : ⌊(t - 3600 * ((0 : ℤ) : ℚ)) / 60⌋ = 0 := by
    rw [Int.floor_eq_zero_iff, Set.mem_Ico]
    constructor
    · push_cast
      exact div_nonneg (by linarith) (by norm_num)
    · push_cast
      rw [div_lt_one (by norm_num)]
      linarith
  rw [hf2]
  norm_num

theorem ssField_subsecond (t : ℚ) (h0 : 0 ≤ t) (h1 : t < 1) : ssField t = 0 := by
  unfold ssField pyMod pyInt
  have hf : ⌊t / 60⌋ = 0 := by
    rw [Int.floor_eq_zero_iff, Set.mem_Ico]
    constructor
    · exact div_nonneg h0 (by norm_num)
    · rw [div_lt_one (by norm_num)]
      linarith
  rw [hf]
  have hf2 : ⌊t - 60 * ((0 : ℤ) : ℚ)⌋ = 0 := by
    rw [Int.floor_eq_zero_iff, Set.mem_Ico]
    push_cast
    constructor
    · linarith
    · linarith
  rw [if_neg (by push_cast; linarith), hf2]

theorem msField_subsecond (t : ℚ) (h0 : 0 ≤ t) (h1 : t < 1) :
    msField t = pyRound (t * 1000) := by
  unfold msField pyInt
  rw [if_neg (by linarith)]
  have hf : ⌊t⌋ = 0 := by
    rw [Int.floor_eq_zero_iff, Set.mem_Ico]
    exact ⟨h0, h1⟩
  rw [hf]
  norm_num

theorem frameFilename_subsecond (t : ℚ) (h0 : 0 ≤ t) (h1 : t < 1) :
    frameFilename t = ("frame_00_00_00.") ++ intPad 3 (pyRound (t * 1000)) ++ (".png") := by
  unfold frameFilename
  rw [hhField_subsecond t h0 (by linarith), mmField_subsecond t h0 (by linarith),
    ssField_subsecond t h0 h1, msField_subsecond t h0 h1]
  rfl

theorem pyRound_zero : pyRound 0 = 0 := by
  unfold pyRound
  norm_num

theorem pyRound_4998over10 : pyRound (2499 / 5 : ℚ) = 500 := by
  unfold pyRound
  have hf : ⌊(2499 / 5 : ℚ)⌋ = 499 := by
    rw [Int.floor_eq_iff]
    constructor <;> norm_num
  rw [hf]
  rw [if_neg (by push_cast; norm_num), if_pos (by push_cast; norm_num)]
  norm_num

theorem pyRound_4998over5 : pyRound (4998 / 5 : ℚ) = 1000 := by
  unfold pyRound
  have hf : ⌊(4998 / 5 : ℚ)⌋ = 999 := by
    rw [Int.floor_eq_iff]
    constructor <;> norm_num
  rw [hf]
  rw [if_neg (by push_cast; norm_num), if_pos (by push_cast; norm_num)]
  norm_num

theorem frameFilename_zero : frameFilename 0 = "frame_00_00_00.000.png" := by
  rw [frameFilename_subsecond 0 le_rfl (by norm_num)]
  rw [show (0 : ℚ) * 1000 = 0 by ring, pyRound_zero]
  rfl

theorem frameFilename_04998 :
    frameFilename (2499 / 5000) = "frame_00_00_00.500.png" := by
  rw [frameFilename_subsecond (2499 / 5000) (by norm_num) (by norm_num)]
  rw [show (2499 / 5000 : ℚ) * 1000 = 2499 / 5 by norm_num, pyRound_4998over10]
  rfl

theorem frameFilename_09996 :
    frameFilename (2499 / 2500) = "frame_00_00_00.1000.png" := by
  rw [frameFilename_subsecond (2499 / 2500) (by norm_num) (by norm_num)]
  rw [show (2499 / 2500 : ℚ) * 1000 = 4998 / 5 by norm_num, pyRound_4998over5]
  rfl

/-! ### Claims -/

/-- C1 (amended): under exact clock accumulation — every
`current_time += interval` computed without rounding — for every interval > 0
and every video of duration D ≥ 0 in which the decoder returns a frame at
every sampled timestamp, the extraction loop saves exactly
`⌊D / interval⌋ + 1` frames: it starts the clock at 0.0, saves one frame per
iteration, advances the clock by the interval, and stops once the clock
exceeds D. The source accumulates the clock in binary64, whose rounding can
make the count differ at boundary inputs: with interval the double nearest
0.1 and duration 0.5 the program saves one frame more than the formula. -/
theorem claim1_saved_count (d w : ℚ → Bool) (i D : ℚ) (fuel : ℕ) (hi : 0 < i)
    (hD : 0 ≤ D) (hd : ∀ m : ℕ, d ((m : ℚ) * i) = true)
    (hfuel : ⌊D / i⌋₊ + 1 ≤ fuel) :
    (runMain d w (fun _ => false) i D fuel).saved = ⌊D / i⌋₊ + 1 :=
  (runMain_success d w i D fuel hi hD hd hfuel).2.1

theorem claim1_saved_count_witness :
    (runMain (fun _ => true) (fun _ => true) (fun _ => false) 2 10 6).saved = 6 := by
  have h : ⌊(10 : ℚ) / 2⌋₊ = 5 := by norm_num
  have h2 := claim1_saved_count (fun _ => true) (fun _ => true) 2 10 6 (by norm_num)
    (by norm_num) (fun m => rfl) (by rw [h])
  rw [h2, h]

/-- C2 (amended): the decoder handle is released on the two loop exits that
return control to `main` (decode failure and clock passing the duration); an
exception raised mid-loop (e.g. during an image write) propagates past
`cap.release()`, which is skipped. -/
theorem claim2_release_paths (d w r : ℚ → Bool) (i D : ℚ) (fuel : ℕ) :
    ((runMain d w r i D fuel).exitedBy = .decodeFail ∨
        (runMain d w r i D fuel).exitedBy = .clockDone →
      (runMain d w r i D fuel).released = true) ∧
    ((runMain d w r i D fuel).exitedBy = .exceptionRaised →
      (runMain d w r i D fuel).released = false) := by
  unfold runMain
  cases extractLoop d w r i D fuel 0 ⟨0, [], 0, 0⟩ <;> simp

/-- C2 counterexample: a run in which the first image write raises exits the
extraction phase without `cap.release()` having run, refuting "no exit path
skips the release". -/
theorem claim2_counterexample :
    (runMain (fun _ => true) (fun _ => true) (fun _ => true) 1 10 3).exitedBy =
      .exceptionRaised ∧
    (runMain (fun _ => true) (fun _ => true) (fun _ => true) 1 10 3).released = false :=
  ⟨rfl, rfl⟩

theorem claim2_release_paths_witness :
    (runMain (fun _ => false) (fun _ => true) (fun _ => false) 1 1 1).released = true ∧
    (runMain (fun _ => true) (fun _ => true) (fun _ => true) 1 10 3).released = false :=
  ⟨(claim2_release_paths (fun _ => false) (fun _ => true) (fun _ => false) 1 1 1).1
      (Or.inl rfl),
    (claim2_release_paths (fun _ => true) (fun _ => true) (fun _ => true) 1 10 3).2 rfl⟩

/-- C6: when the interval is strictly larger than the (nonnegative) duration
and the frame at timestamp 0 decodes, exactly one frame is saved, named
`frame_00_00_00.000.png`, and the loop terminates through the clock test. -/
theorem claim6_single_frame (d w : ℚ → Bool) (i D : ℚ) (fuel : ℕ)
    (_hD : 0 ≤ D) (hiD : D < i) (hd : d 0 = true) (hfuel : 1 ≤ fuel) :
    (runMain d w (fun _ => false) i D fuel).saved = 1 ∧
    (runMain d w (fun _ => false) i D fuel).files = [("frame_00_00_00.000.png")] ∧
    (runMain d w (fun _ => false) i D fuel).exitedBy = .clockDone := by
  obtain ⟨f, rfl⟩ : ∃ f, fuel = f + 1 := ⟨fuel - 1, by omega⟩
  unfold runMain
  rw [extractLoop_succ, if_neg (by simp [hd]), if_neg (by simp),
    if_pos (by rw [zero_add]; exact hiD)]
  refine ⟨rfl, ?_, rfl⟩
  show [] ++ [frameFilename 0] = [("frame_00_00_00.000.png")]
  rw [List.nil_append, frameFilename_zero]

theorem claim6_single_frame_witness :
    (runMain (fun _ => true) (fun _ => true) (fun _ => false) 5 1 1).saved = 1 ∧
    (runMain (fun _ => true) (fun _ => true) (fun _ => false) 5 1 1).files =
      [("frame_00_00_00.000.png")] ∧
    (runMain (fun _ => true) (fun _ => true) (fun _ => false) 5 1 1).exitedBy =
      .clockDone :=
  claim6_single_frame (fun _ => true) (fun _ => true) 5 1 1 (by norm_num) (by norm_num)
    rfl le_rfl

/-- C7: a decode failure inside the loop is not an error: the loop exits
without saving a frame for that timestamp (the saved count equals the number
of files written before the failure), the summary is printed, the handle is
released, and the process exits 0. -/
theorem claim7_decode_failure_normal (d w r : ℚ → Bool) (i D : ℚ) (fuel : ℕ)
    (h : (runMain d w r i D fuel).exitedBy = .decodeFail) :
    (runMain d w r i D fuel).exitCode = 0 ∧
    (runMain d w r i D fuel).summaryPrinted = true ∧
    (runMain d w r i D fuel).released = true ∧
    (runMain d w r i D fuel).saved = (runMain d w r i D fuel).files.length := by
  have hinv := extractLoop_saved_eq_files d w r i D fuel 0 ⟨0, [], 0, 0⟩ rfl
  unfold runMain at h ⊢
  cases hE : extractLoop d w r i D fuel 0 ⟨0, [], 0, 0⟩ with
  | doneDecodeFail st =>
    rw [hE] at hinv
    simp only [LoopOut.state] at hinv
    exact ⟨rfl, rfl, rfl, hinv⟩
  | doneClock st =>
    rw [hE] at h
    simp at h
  | raised st =>
    rw [hE] at h
    simp at h
  | outOfFuel st =>
    rw [hE] at h
    simp at h

theorem claim7_decode_failure_witness :
    (runMain (fun _ => false) (fun _ => true) (fun _ => false) 1 5 2).exitCode = 0 ∧
    (runMain (fun _ => false) (fun _ => true) (fun _ => false) 1 5 2).summaryPrinted
      = true ∧
    (runMain (fun _ => false) (fun _ => true) (fun _ => false) 1 5 2).released = true ∧
    (runMain (fun _ => false) (fun _ => true) (fun _ => false) 1 5 2).saved =
      (runMain (fun _ => false) (fun _ => true) (fun _ => false) 1 5 2).files.length :=
  claim7_decode_failure_normal (fun _ => false) (fun _ => true) (fun _ => false) 1 5 2 rfl

/-- C8: with fps reported as zero (or negative), the derived duration is 0 and
the loop still performs exactly one seek/read attempt, at timestamp 0, saving
one frame exactly when that decode succeeds, and never attempts a second
timestamp. -/
theorem claim8_zero_fps (tf : ℤ) (fps : ℚ) (d w : ℚ → Bool) (i : ℚ) (fuel : ℕ)
    (hfps : fps ≤ 0) (hi : 0 < i) (hfuel : 1 ≤ fuel) :
    durationSec tf fps = 0 ∧
    (runMain d w (fun _ => false) i (durationSec tf fps) fuel).attempts = 1 ∧
    (runMain d w (fun _ => false) i (durationSec tf fps) fuel).saved =
      (if d 0 = true then 1 else 0) := by
  have hdur : durationSec tf fps = 0 := by
    unfold durationSec
    rw [if_neg (not_lt.mpr hfps)]
  refine ⟨hdur, ?_⟩
  rw [hdur]
  obtain ⟨f, rfl⟩ : ∃ f, fuel = f + 1 := ⟨fuel - 1, by omega⟩
  unfold runMain
  cases hd0 : d 0 with
  | false =>
    rw [extractLoop_succ, if_pos hd0]
    exact ⟨rfl, rfl⟩
  | true =>
    rw [extractLoop_succ, if_neg (by simp [hd0]), if_neg (by simp),
      if_pos (by rw [zero_add]; exact hi)]
    exact ⟨rfl, rfl⟩

theorem claim8_zero_fps_witness :
    durationSec 300 0 = 0 ∧
    (runMain (fun _ => true) (fun _ => true) (fun _ => false) 1
      (durationSec 300 0) 1).attempts = 1 ∧
    (runMain (fun _ => true) (fun _ => true) (fun _ => false) 1
      (durationSec 300 0) 1).saved =
      (if (fun _ : ℚ => true) 0 = true then 1 else 0) :=
  claim8_zero_fps 300 0 (fun _ => true) (fun _ => true) 1 1 le_rfl (by norm_num) le_rfl

/-- C10: the `saved` counter is incremented once per successfully decoded
frame regardless of the boolean result of `cv2.imwrite`, which is ignored:
runs differing only in the write results report the same count, the number
of files actually written never exceeds it, and a run whose writes all fail
still reports more frames than were written. -/
theorem claim10_saved_ignores_write (d r w1 w2 : ℚ → Bool) (i D : ℚ) (fuel : ℕ) :
    (runMain d w1 r i D fuel).saved = (runMain d w2 r i D fuel).saved ∧
    (runMain d w1 r i D fuel).written ≤ (runMain d w1 r i D fuel).saved ∧
    (runMain (fun _ => true) (fun _ => false) (fun _ => false) 1 0 1).written <
      (runMain (fun _ => true) (fun _ => false) (fun _ => false) 1 0 1).saved := by
  refine ⟨?_, ?_, ?_⟩
  · rw [runMain_saved, runMain_saved]
    exact extractLoop_saved_indep d r w1 w2 i D fuel 0 _ _ rfl
  · rw [runMain_written, runMain_saved]
    exact extractLoop_written_le_saved d w1 r i D fuel 0 _ (by norm_num)
  · unfold runMain
    rw [extractLoop_succ, if_neg (by simp), if_neg (by simp), if_pos (by norm_num)]
    simp

/-- C3: counter-demonstration on the code. With interval 0.4998 s (≥ 0.001 s)
and duration 1 s, every decode succeeding, the run writes
frame_00_00_00.000.png, frame_00_00_00.500.png and then
frame_00_00_00.1000.png — the millisecond field of the third overflows to
1000, and that filename sorts strictly before the second one, so the
sequence of generated filenames is not monotone in the timestamp. -/
theorem claim3_order_violation :
    (runMain (fun _ => true) (fun _ => true) (fun _ => false) (2499 / 5000) 1 3).files =
      [("frame_00_00_00.000.png"), ("frame_00_00_00.500.png"),
        ("frame_00_00_00.1000.png")] ∧
    ("frame_00_00_00.1000.png" : String) < "frame_00_00_00.500.png" ∧
    (1 / 1000 : ℚ) ≤ 2499 / 5000 := by
  refine ⟨?_,
    (@String.lt_iff_toList_lt ("frame_00_00_00.1000.png")
      ("frame_00_00_00.500.png")).mpr (by decide),
    by norm_num⟩
  have hfl : ⌊(1 : ℚ) / (2499 / 5000)⌋₊ = 2 := by
    rw [Nat.floor_eq_iff (by norm_num)]
    constructor <;> norm_num
  have h := (runMain_success (fun _ => true) (fun _ => true) (2499 / 5000) 1 3
    (by norm_num) (by norm_num) (fun m => rfl) (by rw [hfl])).2.2.2
  rw [h, hfl]
  rw [show List.range (2 + 1) = [0, 1, 2] from rfl]
  simp only [List.map_cons, List.map_nil]
  rw [show ((0 : ℕ) : ℚ) * (2499 / 5000) = 0 by norm_num,
    show ((1 : ℕ) : ℚ) * (2499 / 5000) = 2499 / 5000 by norm_num,
    show ((2 : ℕ) : ℚ) * (2499 / 5000) = 2499 / 2500 by norm_num,
    frameFilename_zero, frameFilename_04998, frameFilename_09996]

/-- C4: counter-demonstration on the code. At clock 0.9996 s (the second
sampled timestamp of interval 0.4998 s, or the first of interval 0.9996 s)
the millisecond field `int(round((t - int(t)) * 1000))` evaluates to 1000,
outside the claimed 000–999 range, and the generated filename is
frame_00_00_00.1000.png with a four-digit millisecond part. -/
theorem claim4_ms_overflow :
    msField (2499 / 2500) = 1000 ∧
    ¬(msField (2499 / 2500) ≤ 999) ∧
    frameFilename (2499 / 2500) = "frame_00_00_00.1000.png" := by
  have hms : msField (2499 / 2500) = 1000 := by
    rw [msField_subsecond (2499 / 2500) (by norm_num) (by norm_num),
      show ((2499 : ℚ) / 2500) * 1000 = 4998 / 5 by norm_num, pyRound_4998over5]
  exact ⟨hms, by rw [hms]; norm_num, frameFilename_09996⟩

/-- C5: if the interval string fails validation (non-numeric, or a value
≤ 0) or the input path is not an existing file, the pre-loop phase aborts
before `os.makedirs` runs and before the decoder is constructed: both
validations precede directory creation and any decoder or file write. -/
theorem claim5_abort_before_effects (s : String) (inputIsFile decoderOpens : Bool)
    (h : validateInterval s = none ∨ inputIsFile = false) :
    ((setupPhase s inputIsFile decoderOpens).aborted).isSome = true ∧
    (setupPhase s inputIsFile decoderOpens).madeDir = false ∧
    (setupPhase s inputIsFile decoderOpens).openedDecoder = false := by
  unfold setupPhase
  rcases h with h | h
  · rw [h]
    exact ⟨rfl, rfl, rfl⟩
  · cases hv : validateInterval s with
    | none => exact ⟨rfl, rfl, rfl⟩
    | some v =>
      rw [h]
      exact ⟨rfl, rfl, rfl⟩

theorem claim5_abort_witness :
    (validateInterval ("abc") = none ∨ (true = false)) ∧
    ((setupPhase ("abc") true true).aborted).isSome = true ∧
    (setupPhase ("abc") true true).madeDir = false ∧
    (setupPhase ("abc") true true).openedDecoder = false :=
  ⟨Or.inl (by decide),
    claim5_abort_before_effects ("abc") true true (Or.inl (by decide))⟩

theorem pyAdd_nan (x : PyVal) : pyAdd x .nan = .nan := by
  cases x <;> rfl

theorem clockAt_nan (n : ℕ) (hn : 1 ≤ n) : clockAt .nan n = .nan := by
  obtain ⟨m, rfl⟩ : ∃ m, n = m + 1 := ⟨n - 1, by omega⟩
  show pyAdd (clockAt .nan m) .nan = .nan
  exact pyAdd_nan _

/-- C9: interval validation accepts the non-finite numeric strings "nan" and
"inf" — `float()` parses them and the `interval <= 0` test is false, so the
process proceeds to extraction instead of aborting — and with a NaN interval
the loop's stop condition `clock > duration` is false at every
post-increment clock value, whatever the duration. -/
theorem claim9_nan_interval (D : PyVal) (n : ℕ) (hn : 1 ≤ n) :
    validateInterval ("nan") = some .nan ∧
    validateInterval ("inf") = some .inf ∧
    pyGt (clockAt .nan n) D = false := by
  refine ⟨by decide, by decide, ?_⟩
  rw [clockAt_nan n hn]
  cases D <;> rfl

theorem claim9_nan_interval_witness :
    validateInterval ("nan") = some .nan ∧
    validateInterval ("inf") = some .inf ∧
    pyGt (clockAt .nan 1) (.num 5) = false :=
  claim9_nan_interval (.num 5) 1 le_rfl

/-! ### Evaluating the binary64 clock of the source -/

theorem extractLoopF_succ (d w r : ℚ → Bool) (i D t : ℚ) (st : LoopSt) (fuel : ℕ) :
    extractLoopF d w r i D (fuel + 1) t st =
      (if d t = false then
        LoopOut.doneDecodeFail ⟨st.saved, st.files, st.written, st.attempts + 1⟩
      else if r t = true then
        LoopOut.raised ⟨st.saved, st.files, st.written, st.attempts + 1⟩
      else
        (if fp64 (t + i) > D then
          LoopOut.doneClock
            ⟨st.saved + 1, st.files ++ [frameFilename t],
              st.written + (if w t = true then 1 else 0), st.attempts + 1⟩
        else
          extractLoopF d w r i D fuel (fp64 (t + i))
            ⟨st.saved + 1, st.files ++ [frameFilename t],
              st.written + (if w t = true then 1 else 0), st.attempts + 1⟩)) := rfl

theorem intLog2_eq (q : ℚ) (L : ℤ) (hq : 0 < q) (h1 : ((2 : ℕ) : ℚ) ^ L ≤ q)
    (h2 : q < ((2 : ℕ) : ℚ) ^ (L + 1)) : Int.log 2 q = L := by
  have ha : L ≤ Int.log 2 q := (Int.zpow_le_iff_le_log one_lt_two hq).mp h1
  have hb : Int.log 2 q < L + 1 := (Int.lt_zpow_iff_log_lt one_lt_two hq).mp h2
  omega

/-- Bridge for evaluating `fp64` at a concrete value: exhibit the binade
`[2^L, 2^(L+1))` of the argument and the half-to-even rounding `m` of the
scaled significand. -/
theorem fp64_eq (q r : ℚ) (L m : ℤ) (hq : 0 < q) (h1 : ((2 : ℕ) : ℚ) ^ L ≤ q)
    (h2 : q < ((2 : ℕ) : ℚ) ^ (L + 1)) (hm : pyRound (q * 2 ^ (52 - L)) = m)
    (hr : (m : ℚ) * 2 ^ (L - 52) = r) : fp64 q = r := by
  unfold fp64
  rw [if_neg (not_le.mpr hq), intLog2_eq q L hq h1 h2, hm, hr]

theorem fp64_t1 : fp64 (3602879701896397 / 2 ^ 55 : ℚ) = 3602879701896397 / 2 ^ 55 := by
  refine fp64_eq _ _ (-4) 7205759403792794 (by norm_num) (by norm_num) (by norm_num)
    ?_ (by norm_num)
  rw [show ((3602879701896397 / 2 ^ 55 : ℚ) * 2 ^ (52 - (-4 : ℤ)))
    = 7205759403792794 by norm_num]
  unfold pyRound
  have hf : ⌊(7205759403792794 : ℚ)⌋ = 7205759403792794 := by
    rw [Int.floor_eq_iff]
    constructor <;> norm_num
  rw [hf, if_pos (by norm_num)]

theorem fp64_t2 : fp64 (3602879701896397 / 2 ^ 54 : ℚ) = 3602879701896397 / 2 ^ 54 := by
  refine fp64_eq _ _ (-3) 7205759403792794 (by norm_num) (by norm_num) (by norm_num)
    ?_ (by norm_num)
  rw [show ((3602879701896397 / 2 ^ 54 : ℚ) * 2 ^ (52 - (-3 : ℤ)))
    = 7205759403792794 by norm_num]
  unfold pyRound
  have hf : ⌊(7205759403792794 : ℚ)⌋ = 7205759403792794 := by
    rw [Int.floor_eq_iff]
    constructor <;> norm_num
  rw [hf, if_pos (by norm_num)]

theorem fp64_t3 : fp64 (10808639105689191 / 2 ^ 55 : ℚ) = 1351079888211149 / 2 ^ 52 := by
  refine fp64_eq _ _ (-2) 5404319552844596 (by norm_num) (by norm_num) (by norm_num)
    ?_ (by norm_num)
  rw [show ((10808639105689191 / 2 ^ 55 : ℚ) * 2 ^ (52 - (-2 : ℤ)))
    = 10808639105689191 / 2 by norm_num]
  unfold pyRound
  have hf : ⌊(10808639105689191 / 2 : ℚ)⌋ = 5404319552844595 := by
    rw [Int.floor_eq_iff]
    constructor <;> norm_num
  rw [hf, if_neg (by norm_num), if_neg (by norm_num), if_neg (by norm_num)]
  norm_num

theorem fp64_t4 : fp64 (14411518807585589 / 2 ^ 55 : ℚ) = 3602879701896397 / 2 ^ 53 := by
  refine fp64_eq _ _ (-2) 7205759403792794 (by norm_num) (by norm_num) (by norm_num)
    ?_ (by norm_num)
  rw [show ((14411518807585589 / 2 ^ 55 : ℚ) * 2 ^ (52 - (-2 : ℤ)))
    = 14411518807585589 / 2 by norm_num]
  unfold pyRound
  have hf : ⌊(14411518807585589 / 2 : ℚ)⌋ = 7205759403792794 := by
    rw [Int.floor_eq_iff]
    constructor <;> norm_num
  rw [hf, if_neg (by norm_num), if_neg (by norm_num), if_pos (by norm_num)]

theorem fp64_t5 : fp64 (18014398509481985 / 2 ^ 55 : ℚ) = 1 / 2 := by
  refine fp64_eq _ _ (-1) 4503599627370496 (by norm_num) (by norm_num) (by norm_num)
    ?_ (by norm_num)
  rw [show ((18014398509481985 / 2 ^ 55 : ℚ) * 2 ^ (52 - (-1 : ℤ)))
    = 18014398509481985 / 4 by norm_num]
  unfold pyRound
  have hf : ⌊(18014398509481985 / 4 : ℚ)⌋ = 4503599627370496 := by
    rw [Int.floor_eq_iff]
    constructor <;> norm_num
  rw [hf, if_pos (by norm_num)]

theorem fp64_t6 : fp64 (21617278211378381 / 2 ^ 55 : ℚ) = 5404319552844595 / 2 ^ 53 := by
  refine fp64_eq _ _ (-1) 5404319552844595 (by norm_num) (by norm_num) (by norm_num)
    ?_ (by norm_num)
  rw [show ((21617278211378381 / 2 ^ 55 : ℚ) * 2 ^ (52 - (-1 : ℤ)))
    = 21617278211378381 / 4 by norm_num]
  unfold pyRound
  have hf : ⌊(21617278211378381 / 4 : ℚ)⌋ = 5404319552844595 := by
    rw [Int.floor_eq_iff]
    constructor <;> norm_num
  rw [hf, if_pos (by norm_num)]

/-- C1 counterexample: with the source's binary64 clock, interval the double
nearest 0.1 (3602879701896397/2^55) and duration 0.5 (a 5-frame video at
10 fps), the float sums are 0.1, 0.2, 0.30000000000000004, 0.4 and then
exactly 0.5 — the fifth addition rounds down onto the duration, the stop
test `0.5 > 0.5` is false, and the run saves 6 frames, while
`⌊duration / interval⌋ + 1 = 5`: the claimed count formula is false of the
program at this input. -/
theorem claim1_counterexample :
    (runMainF (fun _ => true) (fun _ => true) (fun _ => false)
        (3602879701896397 / 2 ^ 55) (1 / 2) 6).saved = 6 ∧
    ⌊(1 / 2 : ℚ) / (3602879701896397 / 2 ^ 55)⌋₊ + 1 = 5 ∧
    (runMainF (fun _ => true) (fun _ => true) (fun _ => false)
        (3602879701896397 / 2 ^ 55) (1 / 2) 6).saved ≠
      ⌊(1 / 2 : ℚ) / (3602879701896397 / 2 ^ 55)⌋₊ + 1 := by
  have hfloor : ⌊(1 / 2 : ℚ) / (3602879701896397 / 2 ^ 55)⌋₊ = 4 := by
    rw [Nat.floor_eq_iff (by positivity)]
    constructor <;> norm_num
  have hsaved : (runMainF (fun _ => true) (fun _ => true) (fun _ => false)
      (3602879701896397 / 2 ^ 55) (1 / 2) 6).saved = 6 := by
    unfold runMainF
    rw [show (6 : ℕ) = 5 + 1 from rfl, extractLoopF_succ,
      if_neg (by simp), if_neg (by simp),
      show (0 : ℚ) + 3602879701896397 / 2 ^ 55 = 3602879701896397 / 2 ^ 55 by norm_num,
      fp64_t1, if_neg (by norm_num)]
    rw [show (5 : ℕ) = 4 + 1 from rfl, extractLoopF_succ,
      if_neg (by simp), if_neg (by simp),
      show (3602879701896397 / 2 ^ 55 : ℚ) + 3602879701896397 / 2 ^ 55
        = 3602879701896397 / 2 ^ 54 by norm_num,
      fp64_t2, if_neg (by norm_num)]
    rw [show (4 : ℕ) = 3 + 1 from rfl, extractLoopF_succ,
      if_neg (by simp), if_neg (by simp),
      show (3602879701896397 / 2 ^ 54 : ℚ) + 3602879701896397 / 2 ^ 55
        = 10808639105689191 / 2 ^ 55 by norm_num,
      fp64_t3, if_neg (by norm_num)]
    rw [show (3 : ℕ) = 2 + 1 from rfl, extractLoopF_succ,
      if_neg (by simp), if_neg (by simp),
      show (1351079888211149 / 2 ^ 52 : ℚ) + 3602879701896397 / 2 ^ 55
        = 14411518807585589 / 2 ^ 55 by norm_num,
      fp64_t4, if_neg (by norm_num)]
    rw [show (2 : ℕ) = 1 + 1 from rfl, extractLoopF_succ,
      if_neg (by simp), if_neg (by simp),
      show (3602879701896397 / 2 ^ 53 : ℚ) + 3602879701896397 / 2 ^ 55
        = 18014398509481985 / 2 ^ 55 by norm_num,
      fp64_t5, if_neg (by norm_num)]
    rw [show (1 : ℕ) = 0 + 1 from rfl, extractLoopF_succ,
      if_neg (by simp), if_neg (by simp),
      show (1 / 2 : ℚ) + 3602879701896397 / 2 ^ 55
        = 21617278211378381 / 2 ^ 55 by norm_num,
      fp64_t6, if_pos (by norm_num)]
  exact ⟨hsaved, by rw [hfloor], by rw [hsaved, hfloor]; norm_num⟩
